import Mathlib

set_option maxRecDepth 8000

/-!
Verification of the mirrord-vscode execution core against its specification.

The development shallowly embeds the TypeScript sources:

* `src/api.ts` — `makeMirrordArgs`, `MirrordExecution.mirrordExecutionFromJson`,
  and the subprocess supervision inside `MirrordAPI.binaryExecute`
  (the stdout line decoder, the stderr error sentinel, the close handler
  and the 120-second timer race);
* `src/targetQuickPick.ts` — the target selection quick pick
  (catalog filtering, default page selection, item preparation and the
  selection loop with its persisted last-target state);
* `src/debugger.ts` — the launch-configuration environment patching in `main`
  (merge of the execution result environment into `config.env`, removal of
  `envToUnset` keys, and the injected sentinel key).

JavaScript strings are modelled as Lean `String`/`List Char` (the sources only
ever handle ASCII protocol data), JS objects as insertion-ordered association
lists, and `JSON.parse` as an executable parser `parseJson` for the JSON
fragment the protocol uses (objects, arrays, strings with the common escapes,
integers, booleans, null).  Fallible steps return `Option`.
-/

namespace MirrordSpec

/-! ## A JSON value model and an executable parser (for `JSON.parse`) -/

/-- JSON values, as produced by `JSON.parse` on protocol lines. -/
inductive Json where
  | null : Json
  | bool (b : Bool) : Json
  | num (n : Int) : Json
  | str (s : String) : Json
  | arr (elems : List Json) : Json
  | obj (fields : List (String × Json)) : Json

/-- Member access `v[k]`: `none` models the JS `undefined`. -/
def jsGet (v : Json) (k : String) : Option Json :=
  match v with
  | .obj fields => (fields.find? (fun p => p.1 = k)).map (fun p => p.2)
  | _ => none

/-- JS truthiness of a JSON value (`if (v) ...`). -/
def jsTruthy (v : Json) : Bool :=
  match v with
  | .null => false
  | .bool b => b
  | .num n => n != 0
  | .str s => s != ""
  | .arr _ => true
  | .obj _ => true

/-- JS truthiness of a possibly-absent value (`undefined` is falsy). -/
def jsTruthyOpt (v : Option Json) : Bool :=
  match v with
  | none => false
  | some w => jsTruthy w

/-- Equality test `v === "s"` between a possibly-absent JSON value and a string
literal, as used by the discriminator checks in `binaryExecute`. -/
def jsStrEq (v : Option Json) (s : String) : Bool :=
  match v with
  | some (.str t) => t = s
  | _ => false

/-- String coercion used by JS template literals and string concatenation,
restricted to the cases the protocol can produce (`undefined` prints as
`undefined`, `null` as `null`, numbers and booleans as their literals; the
array case is abbreviated to a placeholder — no protocol message and no claim
ever displays an array — and a plain object prints as `[object Object]`). -/
def jsDisplay : Json → String
  | .null => "null"
  | .bool b => cond b "true" "false"
  | .num n => toString n
  | .str s => s
  | .arr _ => "[array]"
  | .obj _ => "[object Object]"

/-- Coercion of a possibly-absent value. -/
def jsDisplayOpt (v : Option Json) : String :=
  match v with
  | none => "undefined"
  | some w => jsDisplay w

/-- Whitespace skipping for the JSON parser. -/
def skipWs : List Char → List Char
  | [] => []
  | c :: cs =>
    if c == ' ' || c == '\n' || c == '\t' || c == '\r' then skipWs cs else c :: cs

/-- Body of a JSON string literal after the opening quote: consumes characters
up to the closing quote, handling the common escapes. -/
def parseStringBody : List Char → List Char → Option (String × List Char)
  | [], _ => none
  | '"' :: rest, acc => some (String.mk acc.reverse, rest)
  | '\\' :: e :: rest, acc =>
    let ec : Option Char :=
      if e == '"' then some '"'
      else if e == '\\' then some '\\'
      else if e == '/' then some '/'
      else if e == 'n' then some '\n'
      else if e == 't' then some '\t'
      else if e == 'r' then some '\r'
      else none
    match ec with
    | some ch => parseStringBody rest (ch :: acc)
    | none => none
  | ['\\'], _ => none
  | c :: rest, acc => parseStringBody rest (c :: acc)

/-- Digit run to a natural number. -/
def digitsToNat (ds : List Char) : Nat :=
  ds.foldl (fun n c => n * 10 + (c.toNat - '0'.toNat)) 0

/-- Integer literals (the protocol never uses fractions or exponents; a
following `.`/`e` makes the parse fail). -/
def parseIntLit (cs : List Char) : Option (Int × List Char) :=
  let (neg, cs₁) : Bool × List Char :=
    match cs with
    | '-' :: rest => (true, rest)
    | _ => (false, cs)
  let ds := cs₁.takeWhile (fun c => c.isDigit)
  let rest := cs₁.dropWhile (fun c => c.isDigit)
  if ds.isEmpty then none
  else
    match rest with
    | '.' :: _ => none
    | 'e' :: _ => none
    | 'E' :: _ => none
    | _ =>
      let n : Int := Int.ofNat (digitsToNat ds)
      some (if neg then -n else n, rest)

mutual

/-- Recursive-descent JSON value parser, total via a fuel argument. -/
def parseValue : Nat → List Char → Option (Json × List Char)
  | 0, _ => none
  | Nat.succ f, cs =>
    match skipWs cs with
    | 'n' :: 'u' :: 'l' :: 'l' :: rest => some (.null, rest)
    | 't' :: 'r' :: 'u' :: 'e' :: rest => some (.bool true, rest)
    | 'f' :: 'a' :: 'l' :: 's' :: 'e' :: rest => some (.bool false, rest)
    | '"' :: rest =>
      match parseStringBody rest [] with
      | some (s, r) => some (.str s, r)
      | none => none
    | '[' :: rest =>
      (match skipWs rest with
       | ']' :: r2 => some (.arr [], r2)
       | _ =>
         match parseElems f rest with
         | some (vs, r2) => some (.arr vs, r2)
         | none => none)
    | '\x7b' :: rest =>
      (match skipWs rest with
       | '\x7d' :: r2 => some (.obj [], r2)
       | _ =>
         match parseFields f rest with
         | some (fs, r2) => some (.obj fs, r2)
         | none => none)
    | '-' :: rest =>
      match parseIntLit ('-' :: rest) with
      | some (n, r) => some (.num n, r)
      | none => none
    | c :: rest =>
      if c.isDigit then
        match parseIntLit (c :: rest) with
        | some (n, r) => some (.num n, r)
        | none => none
      else none
    | [] => none

/-- Comma-separated array elements, up to the closing bracket. -/
def parseElems : Nat → List Char → Option (List Json × List Char)
  | 0, _ => none
  | Nat.succ f, cs =>
    match parseValue f cs with
    | some (v, rest) =>
      (match skipWs rest with
       | ',' :: r2 =>
         match parseElems f r2 with
         | some (vs, r3) => some (v :: vs, r3)
         | none => none
       | ']' :: r2 => some ([v], r2)
       | _ => none)
    | none => none

/-- Comma-separated object members, up to the closing brace. -/
def parseFields : Nat → List Char → Option (List (String × Json) × List Char)
  | 0, _ => none
  | Nat.succ f, cs =>
    match skipWs cs with
    | '"' :: rest =>
      (match parseStringBody rest [] with
       | some (key, r1) =>
         (match skipWs r1 with
          | ':' :: r2 =>
            (match parseValue f r2 with
             | some (v, r3) =>
               (match skipWs r3 with
                | ',' :: r4 =>
                  match parseFields f r4 with
                  | some (fs, r5) => some ((key, v) :: fs, r5)
                  | none => none
                | '\x7d' :: r4 => some ([(key, v)], r4)
                | _ => none)
             | none => none)
          | _ => none)
       | none => none)
    | _ => none

end

/-- JSON parsing of a character sequence: one value, with only whitespace
allowed around it (the behavior of `JSON.parse`). -/
def parseJsonChars (cs : List Char) : Option Json :=
  match parseValue (2 * cs.length + 4) (skipWs cs) with
  | some (v, rest) => if (skipWs rest).isEmpty then some v else none
  | none => none

/-- JSON parsing of a string (`JSON.parse(s)`), `none` when it would throw. -/
def parseJson (s : String) : Option Json :=
  parseJsonChars s.toList

/-! ## JS objects as insertion-ordered association lists

`config.env` and the maps of an execution result are JS objects with string
keys and string values.  We model them as association lists in insertion
order; `objSet` is one property write (update in place when the key exists,
append otherwise), `objAssign` is `Object.assign(target, source)` restricted
to the two-operand uses of `debugger.ts`, and `objDelete` is `delete o[k]`. -/

/-- A JS object with string keys and string values, in insertion order. -/
abbrev EnvObj := List (String × String)

/-- Property read `o[k]`. -/
def envLookup (o : EnvObj) (k : String) : Option String :=
  (o.find? (fun p => p.1 = k)).map (fun p => p.2)

/-- Property write `o[k] = v`: overwrites in place when present, else appends. -/
def objSet (o : EnvObj) (k v : String) : EnvObj :=
  if o.any (fun p => p.1 = k) then
    o.map (fun p => if p.1 = k then (k, v) else p)
  else
    o ++ [(k, v)]

/-- `Object.assign(\x7b\x7d, a, b)`: all properties of `a`, then the
properties of `b` written over them in order. -/
def objAssign (a b : EnvObj) : EnvObj :=
  b.foldl (fun acc p => objSet acc p.1 p.2) a

/-- Property removal `delete o[k]`. -/
def objDelete (o : EnvObj) (k : String) : EnvObj :=
  o.filter (fun p => p.1 ≠ k)

/-! ## The launch-configuration environment patch (`debugger.ts`, `main`)

`main` does, in order (lines 260-269 of `src/debugger.ts`):

  const env = executionInfo?.env;
  config.env = Object.assign(\x7b\x7d, config.env, Object.fromEntries(env));
  if (executionInfo.envToUnset) \x7b
    for (const key of executionInfo.envToUnset) \x7b
      delete config.env[key];
    \x7d
  \x7d
  config.env["__MIRRORD_EXT_INJECTED"] = 'true';
-/

/-- Line 261: merge of the execution result environment into `config.env`. -/
def mergedConfigEnv (configEnv resultEnv : EnvObj) : EnvObj :=
  objAssign configEnv resultEnv

/-- Lines 263-267: removal of the `envToUnset` keys, applied to the merged
environment.  `envToUnset` is `undefined | string[]`; the truthiness test
`if (executionInfo.envToUnset)` skips the loop only for `undefined`. -/
def applyEnvToUnset (merged : EnvObj) (envToUnset : Option (List String)) : EnvObj :=
  match envToUnset with
  | some keys => keys.foldl objDelete merged
  | none => merged

/-- Line 269: the idempotency sentinel written after merge and removal. -/
def setInjectedSentinel (e : EnvObj) : EnvObj :=
  objSet e "__MIRRORD_EXT_INJECTED" "true"

/-- The whole `config.env` transformation of `main` (lines 260-269). -/
def patchedConfigEnv (configEnv resultEnv : EnvObj) (envToUnset : Option (List String)) : EnvObj :=
  setInjectedSentinel (applyEnvToUnset (mergedConfigEnv configEnv resultEnv) envToUnset)

/-- The merge order the specification describes for the patcher: base env,
then result env, then a separate caller overlay applied last.  Written from
the spec sentence, to be compared against `mergedConfigEnv` — the code has no
such third stage. -/
def specThreeStageMerge (base result overlay : EnvObj) : EnvObj :=
  objAssign (objAssign base result) overlay

/-! ## `makeMirrordArgs` (`src/api.ts`, lines 226-245) -/

/-- Argument vector for the `mirrord ext` invocation.  Each optional part is
guarded by JS truthiness (`undefined`, `null` and the empty string are all
falsy), exactly as the `if (target)` / `if (configFilePath)` /
`if (userExecutable)` tests in the source. -/
def makeMirrordArgs (target : Option String) (configFilePath : Option String)
    (userExecutable : Option String) : List String :=
  let args := ["ext"]
  let args := match target with
    | some t => if t ≠ "" then args ++ ["-t", t] else args
    | none => args
  let args := match configFilePath with
    | some f => if f ≠ "" then args ++ ["-f", f] else args
    | none => args
  match userExecutable with
  | some e => if e ≠ "" then args ++ ["-e", e] else args
  | none => args

/-- One optional flag-value pair of the argument contract, as the claim
describes it: present exactly when the value is a present, non-empty string. -/
def optArgPair (flag : String) : Option String → List String
  | some s => if s ≠ "" then [flag, s] else []
  | none => []

/-! ## `MirrordExecution` and its wire decoding (`src/api.ts`, lines 196-221) -/

/-- The execution result handed from the CLI to the extension
(class `MirrordExecution`). -/
structure MirrordExecution where
  env : List (String × String)
  patchedPath : Option String
  envToUnset : Option (List String)
  usesOperator : Option Bool
  deriving DecidableEq

/-- All object fields as string pairs (`new Map(Object.entries(...))` with the
string-valued environments the protocol carries). -/
def envEntries : List (String × Json) → Option (List (String × String))
  | [] => some []
  | (k, .str v) :: rest =>
    match envEntries rest with
    | some tail => some ((k, v) :: tail)
    | none => none
  | _ => none

/-- A JSON array of strings (`env_to_unset`). -/
def strElems : List Json → Option (List String)
  | [] => some []
  | .str s :: rest =>
    match strElems rest with
    | some tail => some (s :: tail)
    | none => none
  | _ => none

/-- `MirrordExecution.mirrordExecutionFromJson(data)`: parse the payload and
read `environment`, `patched_path`, `env_to_unset` and `uses_operator`.
`none` models the cases where the JS code throws (unparsable payload, or an
`environment` that `Object.entries` cannot walk). -/
def mirrordExecutionFromJson (data : String) : Option MirrordExecution :=
  match parseJson data with
  | none => none
  | some parsed =>
    match jsGet parsed "environment" with
    | some (.obj fields) =>
      (match envEntries fields with
       | some env =>
         some
           { env := env
             patchedPath :=
               match jsGet parsed "patched_path" with
               | some (.str s) => some s
               | _ => none
             envToUnset :=
               match jsGet parsed "env_to_unset" with
               | some (.arr xs) => strElems xs
               | _ => none
             usesOperator :=
               match jsGet parsed "uses_operator" with
               | some (.bool b) => some b
               | _ => none }
       | none => none)
    | _ => none

/-! ## The stdout decoder of `binaryExecute` (`src/api.ts`, lines 480-542)

The `data` handler appends the chunk to `buffer`, splits on newlines, and
walks every complete line: an empty line `break`s out (without consuming it),
a line that fails `JSON.parse` logs and `return`s from the handler (so the
rest of the chunk waits for the next `data` event), the terminating
`FinishedTask` message with `success` truthy resolves the promise and
`return`s, and every other line is classified by its `type` discriminator and
dispatched. -/

/-- A dispatched protocol side effect: what `binaryExecute` does with one
classified stdout line (notification, IDE message or progress report). -/
inductive ProtocolEvent where
  | warningEvt (payload : Option Json) : ProtocolEvent
  | infoEvt (payload : Option Json) : ProtocolEvent
  | ideMessageEvt (payload : Option Json) : ProtocolEvent
  | progressEvt (formatted : String) : ProtocolEvent

/-- The generic-progress formatting of the `default` switch case:
`message["name"]`, with `": " + message["message"]` appended when the latter
is truthy. -/
def formatProgress (msg : Json) : String :=
  let base := jsDisplayOpt (jsGet msg "name")
  if jsTruthyOpt (jsGet msg "message") then
    base ++ ": " ++ jsDisplayOpt (jsGet msg "message")
  else base

/-- The literal progress report sent just before resolving. -/
def startedMessage : String := "mirrord started successfully, launching target."

/-- State of the stdout decoder across `data` events: the line buffer, the
dispatched side effects in order, the first resolution (a settled promise
ignores later ones) and whether the handler threw (a malformed `FinishedTask`
payload makes `mirrordExecutionFromJson` throw inside the handler). -/
structure StdoutState where
  buffer : List Char
  dispatched : List ProtocolEvent
  resolved : Option MirrordExecution
  excepted : Bool

/-- `buffer.split("\n")` of the JS handler. -/
def splitNl : List Char → List (List Char)
  | [] => [[]]
  | c :: rest =>
    if c = '\n' then [] :: splitNl rest
    else
      match splitNl rest with
      | l :: ls => (c :: l) :: ls
      | [] => [[c]]

/-- The `for (const rawMessage of messages.slice(0, -1))` loop body over the
complete lines of one `data` event. -/
def chunkLoop (st : StdoutState) : List (List Char) → StdoutState
  | [] => st
  | raw :: rest =>
    if raw = [] then st
    else
      let st := { st with buffer := st.buffer.drop (raw.length + 1) }
      match parseJsonChars raw with
      | none => st
      | some msg =>
        if jsStrEq (jsGet msg "name") "mirrord preparing to launch"
            && jsStrEq (jsGet msg "type") "FinishedTask"
            && jsTruthyOpt (jsGet msg "success") then
          match jsGet msg "message" with
          | some (.str s) =>
            (match mirrordExecutionFromJson s with
             | some ex =>
               { st with
                 dispatched := st.dispatched ++ [.progressEvt startedMessage]
                 resolved := match st.resolved with
                   | some r => some r
                   | none => some ex }
             | none => { st with excepted := true })
          | _ => { st with excepted := true }
        else
          let evt : ProtocolEvent :=
            match jsGet msg "type" with
            | some (.str "Warning") => .warningEvt (jsGet msg "message")
            | some (.str "Info") => .infoEvt (jsGet msg "message")
            | some (.str "IdeMessage") => .ideMessageEvt (jsGet msg "message")
            | _ => .progressEvt (formatProgress msg)
          chunkLoop { st with dispatched := st.dispatched ++ [evt] } rest

/-- One `data` event of the stdout stream.  After an uncaught exception in a
previous handler run no further processing is modelled. -/
def onData (st : StdoutState) (data : String) : StdoutState :=
  if st.excepted then st
  else
    let buffer := st.buffer ++ data.toList
    chunkLoop { st with buffer := buffer } (splitNl buffer).dropLast

/-- The decoder state before any output arrived. -/
def initialStdoutState : StdoutState :=
  { buffer := [], dispatched := [], resolved := none, excepted := false }

/-- The decoder state after the given sequence of stdout `data` chunks. -/
def processStdout (chunks : List String) : StdoutState :=
  chunks.foldl onData initialStdoutState

/-! ## The close handler of `binaryExecute` (`src/api.ts`, lines 456-478)

On `close` the accumulated stderr is matched against `/Error: (.*)/`; a truthy
capture is parsed as JSON and rejects with its `message` (the `help` field,
when truthy, is surfaced as a notification action).  Otherwise a truthy exit
code rejects with an abnormal-exit message, a non-null signal likewise, and a
clean exit rejects nothing — the promise stays pending until the 120-second
timer set at the start of `binaryExecute` rejects with `"timeout"`. -/

/-- The suffix following the first occurrence of the pattern in the text,
`none` when the (non-empty) pattern does not occur. -/
def findAfterSubstr (pat : List Char) : List Char → Option (List Char)
  | [] => none
  | c :: rest =>
    if pat.isPrefixOf (c :: rest) then some ((c :: rest).drop pat.length)
    else findAfterSubstr pat rest

/-- The capture group of `stderrData.match(/Error: (.*)/)?.[1]`: everything
after the first occurrence of `Error: `, up to the next newline. -/
def matchErrorSentinel (stderrData : String) : Option String :=
  match findAfterSubstr "Error: ".toList stderrData.toList with
  | some rest => some (String.mk (rest.takeWhile (fun c => c ≠ '\n')))
  | none => none

/-- The sentinel capture after the truthiness test `if (match)`: an empty
capture is falsy and is treated as no sentinel. -/
def sentinelCapture (stderrData : String) : Option String :=
  match matchErrorSentinel stderrData with
  | some cap => if cap = "" then none else some cap
  | none => none

/-- How one run of `binaryExecute` settles. `rejectedError` is the stderr
sentinel rejection (the spec's `ProtocolError`): it carries the parsed
`message` and the `help` value surfaced to the host (present only when
truthy). `rejectedExitCode` / `rejectedSignal` are the spec's `AbnormalExit`;
`rejectedTimeout` is the 120-second timer firing on a still-pending promise.
The two exception outcomes model the handler itself throwing on unparsable
payloads. -/
inductive RunOutcome where
  | resolvedOk (result : MirrordExecution) : RunOutcome
  | rejectedError (message : Option Json) (helpShown : Option Json) : RunOutcome
  | rejectedExitCode (code : Int) : RunOutcome
  | rejectedSignal (signal : String) : RunOutcome
  | rejectedTimeout : RunOutcome
  | closeException : RunOutcome
  | dataException : RunOutcome

/-- Whether an outcome is the stderr-sentinel (`ProtocolError`) rejection. -/
def RunOutcome.isSentinelError : RunOutcome → Bool
  | .rejectedError _ _ => true
  | _ => false

/-- Exit status delivered to the `close` handler: `(code, signal)`. -/
structure CloseInfo where
  exitCode : Option Int
  signal : Option String
  deriving DecidableEq

/-- The exit-code and signal checks of the close handler, in source order:
`if (code) reject(...); if (signal !== null) reject(...);` — `none` when
neither rejects (clean exit). -/
def codeSignalOutcome (code : Option Int) (signal : Option String) : Option RunOutcome :=
  match code with
  | some c =>
    if c ≠ 0 then some (.rejectedExitCode c)
    else
      match signal with
      | some s => some (.rejectedSignal s)
      | none => none
  | none =>
    match signal with
    | some s => some (.rejectedSignal s)
    | none => none

/-- The whole close handler: the stderr sentinel takes priority over the exit
status; `none` when the handler rejects nothing. -/
def closeOutcome (stderrData : String) (ci : CloseInfo) : Option RunOutcome :=
  match sentinelCapture stderrData with
  | some cap =>
    (match parseJson cap with
     | some err =>
       some (.rejectedError (jsGet err "message")
         (if jsTruthyOpt (jsGet err "help") then jsGet err "help" else none))
     | none => some .closeException)
  | none => codeSignalOutcome ci.exitCode ci.signal

/-- The fixed timer of `binaryExecute`: `setTimeout(() => reject("timeout"),
120 * 1000)` (the doc comment in the source still says 60 seconds; the code
says 120). -/
def TIMEOUT_MS : Nat := 120 * 1000

/-- The method calls `binaryExecute` performs on the spawned child process:
it spawns it and attaches stream and lifecycle listeners.  There is no
`kill` call — the subprocess is left to the OS on timeout. -/
def binaryExecuteChildCalls : List String :=
  ["spawn", "stderr.on data", "on error", "on close", "stdout.on data"]

/-- How one `binaryExecute` run settles, given the child's behavior: all
stdout chunks (which Node delivers before `close`), the accumulated stderr,
and the exit status (`none` when the process never exits).  The promise takes
its first settlement: a `FinishedTask\x7bsuccess:true\x7d` resolution during
stdout processing wins over everything later; otherwise the close handler's
rejection, if any; otherwise the run stays pending until the 120-second timer
rejects. -/
def executeOutcome (chunks : List String) (stderrData : String)
    (closeInfo : Option CloseInfo) : RunOutcome :=
  match (processStdout chunks).resolved with
  | some r => .resolvedOk r
  | none =>
    if (processStdout chunks).excepted then .dataException
    else
      match closeInfo with
      | some ci =>
        (match closeOutcome stderrData ci with
         | some o => o
         | none => .rejectedTimeout)
      | none => .rejectedTimeout

/-! ## The target quick pick (`src/targetQuickPick.ts`)

The quick pick owns the filtered `mirrord ls` output, an optional active page,
and the last selected target read once at construction from the two persisted
scopes (`workspaceState` first, `globalState` as fallback, combined with JS
`||`).  `showAndGet` loops: prepare items for the active page (choosing a
default page when none is active), show them, and react to the pick. -/

/-- JS `path.split('/')[0]`: the prefix before the first separator (the whole
string when there is none).  Computed characterwise, so that it evaluates by
kernel reduction. -/
def targetTypeOf (path : String) : String :=
  String.mk (path.toList.takeWhile (fun c => c ≠ '/'))

/-- JS `s.startsWith(pre)`, computed characterwise. -/
def jsStartsWith (s pre : String) : Bool :=
  pre.toList.isPrefixOf s.toList

/-- A target found in the cluster (`FoundTarget`). -/
structure FoundTarget where
  path : String
  available : Bool
  deriving DecidableEq

/-- The `mirrord ls` output (`MirrordLsOutput`): targets plus, when the CLI
supports namespace listing, the current namespace and all namespaces. -/
structure MirrordLsOutput where
  targets : List FoundTarget
  current_namespace : Option String
  namespaces : Option (List String)
  deriving DecidableEq

/-- A page of the quick pick (`TargetQuickPickPage`); `targetType` is `none`
only for the namespace selection page. -/
structure TargetQuickPickPage where
  label : String
  targetType : Option String
  deriving DecidableEq

/-- The namespace selection page. -/
def NAMESPACE_SELECTION_PAGE : TargetQuickPickPage :=
  { label := "Select Another Namespace", targetType := none }

/-- The target selection pages, in their fixed order. -/
def TARGET_SELECTION_PAGES : List TargetQuickPickPage :=
  [ { label := "Show Deployments", targetType := some "deployment" },
    { label := "Show Rollouts", targetType := some "rollout" },
    { label := "Show Pods", targetType := some "pod" } ]

/-- An item of the quick pick (`TargetQuickPickItem`): select a target, switch
namespace, or switch page. -/
inductive TargetQuickPickItem where
  | targetItem (label : String) (value : String) : TargetQuickPickItem
  | namespaceItem (label : String) (value : String) : TargetQuickPickItem
  | pageItem (label : String) (value : TargetQuickPickPage) : TargetQuickPickItem
  deriving DecidableEq

/-- The targetless choice (`TARGETLESS_ITEM`): a `target`-typed item whose
value is the string `targetless`. -/
def TARGETLESS_ITEM : TargetQuickPickItem :=
  .targetItem "No Target (\"targetless\")" "targetless"

/-- What the user selected (`UserSelection`).  The `namespace` field of the
source is called `ns` here because `namespace` is a Lean keyword. -/
structure UserSelection where
  path : String
  ns : Option String
  deriving DecidableEq

/-- Whether one listed target passes the filter installed by
`TargetQuickPick.new`: available, and of a type some target selection page
advertises. -/
def validTarget (t : FoundTarget) : Bool :=
  t.available &&
    (TARGET_SELECTION_PAGES.find? (fun p => p.targetType == some (targetTypeOf t.path))).isSome

/-- The filtering wrapper `getFilteredTargets` puts around the raw fetcher:
drop unavailable targets and targets of unsupported types. -/
def filterLsOutput (output : MirrordLsOutput) : MirrordLsOutput :=
  { output with targets := output.targets.filter validTarget }

/-- JS `a || b` on two possibly-absent strings (an empty string is falsy). -/
def jsOrString (a b : Option String) : Option String :=
  match a with
  | some s => if s = "" then b else some s
  | none => b

/-- The state of one `TargetQuickPick`: the held catalog, the active page, the
last target read at construction, and the two persisted scopes it can write
(`workspaceState` / `globalState` under `LAST_TARGET_KEY`). -/
structure TargetQuickPickState where
  lsOutput : MirrordLsOutput
  activePage : Option TargetQuickPickPage
  lastTarget : Option String
  workspaceLast : Option String
  globalLast : Option String
  deriving DecidableEq

/-- `TargetQuickPick.new`: fetch once through the filter and read the
persisted last target (workspace scope first, global as fallback). -/
def newQuickPick (fetcher : Option String → MirrordLsOutput)
    (wsLast gsLast : Option String) : TargetQuickPickState :=
  { lsOutput := filterLsOutput (fetcher none)
    activePage := none
    lastTarget := jsOrString wsLast gsLast
    workspaceLast := wsLast
    globalLast := gsLast }

/-- `hasTargetOfType`: whether the held catalog has a target of this type. -/
def hasTargetOfType (o : MirrordLsOutput) (targetType : String) : Bool :=
  o.targets.any (fun t => jsStartsWith t.path (targetType ++ "/"))

/-- `getDefaultPage`: prefer the page of the last selected target's type when
the catalog has such a target; otherwise the page of the first target (in
catalog order) whose type has a page; `none` when there is none. -/
def getDefaultPage (st : TargetQuickPickState) : Option TargetQuickPickPage :=
  let fromLast : Option TargetQuickPickPage :=
    match st.lastTarget with
    | some lt =>
      if hasTargetOfType st.lsOutput (targetTypeOf lt) then
        TARGET_SELECTION_PAGES.find? (fun p => p.targetType == some (targetTypeOf lt))
      else none
    | none => none
  match fromLast with
  | some p => some p
  | none =>
    st.lsOutput.targets.findSome?
      (fun t => TARGET_SELECTION_PAGES.find? (fun p => p.targetType == some (targetTypeOf t.path)))

/-- The in-place default-page assignment at the top of `prepareQuickPick`. -/
def preparedState (st : TargetQuickPickState) : TargetQuickPickState :=
  { st with
    activePage := match st.activePage with
      | some p => some p
      | none => getDefaultPage st }

/-- The `splice`-and-`concat` move of the last selected target to the front of
its page, from `prepareQuickPick`: find the first item the predicate accepts
and move it to the head. -/
def moveMatchFront (p : TargetQuickPickItem → Bool)
    (items : List TargetQuickPickItem) : List TargetQuickPickItem :=
  match items.findIdx? p with
  | some i =>
    (match items.get? i with
     | some a => a :: items.eraseIdx i
     | none => items)
  | none => items

/-- The items `prepareQuickPick` builds for the current (already prepared)
state: the targetless-only view when no page is available, the namespace
browser, or a target page with its targets (last selected first), the
targetless item, the other non-empty pages and, when namespaces are
supported, the namespace page entry. -/
def quickPickItems (st : TargetQuickPickState) : List TargetQuickPickItem :=
  match st.activePage with
  | none =>
    [TARGETLESS_ITEM] ++
      (match st.lsOutput.namespaces with
       | some _ => [.pageItem NAMESPACE_SELECTION_PAGE.label NAMESPACE_SELECTION_PAGE]
       | none => [])
  | some pg =>
    match pg.targetType with
    | none =>
      ((st.lsOutput.namespaces.getD []).filter
          (fun n => st.lsOutput.current_namespace ≠ some n)).map
        (fun n => TargetQuickPickItem.namespaceItem n n) ++
      (TARGET_SELECTION_PAGES.filter
          (fun p =>
            match p.targetType with
            | some tt => hasTargetOfType st.lsOutput tt
            | none => false)).map
        (fun p => TargetQuickPickItem.pageItem p.label p)
    | some tt =>
      let targetItems :=
        (st.lsOutput.targets.filter (fun t => jsStartsWith t.path (tt ++ "/"))).map
          (fun t => TargetQuickPickItem.targetItem t.path t.path)
      let targetItems :=
        match st.lastTarget with
        | some lt =>
          moveMatchFront
            (fun i =>
              match i with
              | .targetItem _ v => v = lt
              | _ => false)
            targetItems
        | none => targetItems
      targetItems ++ [TARGETLESS_ITEM] ++
      (TARGET_SELECTION_PAGES.filter
          (fun p =>
            p.targetType != some tt &&
              (match p.targetType with
               | some t2 => hasTargetOfType st.lsOutput t2
               | none => false))).map
        (fun p => TargetQuickPickItem.pageItem p.label p) ++
      (match st.lsOutput.namespaces with
       | some _ => [.pageItem NAMESPACE_SELECTION_PAGE.label NAMESPACE_SELECTION_PAGE]
       | none => [])

/-- Result of driving `showAndGet` with a finite script of prompts: either the
loop terminated with a selection, or the script ran out while it was still
prompting. -/
inductive QPOutcome where
  | finished (selection : UserSelection) (state : TargetQuickPickState) : QPOutcome
  | outOfPrompts (state : TargetQuickPickState) : QPOutcome
  deriving DecidableEq

/-- The selection of a terminated loop. -/
def QPOutcome.selection : QPOutcome → Option UserSelection
  | .finished sel _ => some sel
  | .outOfPrompts _ => none

/-- `showAndGet`, driven by a script of user reactions: at each prompt the
user picks item `i` of the displayed list (`some i`) or dismisses the picker
(`none`; an out-of-range index also models dismissal, as `showQuickPick` can
only return a shown item or `undefined`).  A `target`-typed pick persists its
value in both scopes and terminates; a namespace pick refetches through the
filter and resets the page; a page pick switches pages; dismissal terminates
targetless without writing. -/
def runQuickPick (fetcher : Option String → MirrordLsOutput) :
    TargetQuickPickState → List (Option Nat) → QPOutcome
  | st, [] => .outOfPrompts st
  | st, choice :: rest =>
    let st := preparedState st
    let items := quickPickItems st
    match choice.bind (fun i => items.get? i) with
    | none =>
      .finished { path := "targetless", ns := st.lsOutput.current_namespace } st
    | some (.targetItem _ v) =>
      .finished { path := v, ns := st.lsOutput.current_namespace }
        { st with workspaceLast := some v, globalLast := some v }
    | some (.namespaceItem _ n) =>
      runQuickPick fetcher
        { st with lsOutput := filterLsOutput (fetcher (some n)), activePage := none } rest
    | some (.pageItem _ pg) =>
      runQuickPick fetcher { st with activePage := some pg } rest

/-! ## Lemmas about the JS object operations -/

theorem find?_map_upd (o : EnvObj) (k v : String) :
    (o.map (fun p => if p.1 = k then (k, v) else p)).find? (fun p => p.1 = k) =
      if o.any (fun p => p.1 = k) then some (k, v) else none := by
  induction o with
  | nil => simp
  | cons hd tl ih =>
    simp only [List.map_cons, List.any_cons]
    by_cases h : hd.1 = k
    · rw [if_pos h, List.find?_cons_of_pos _ (by simp)]
      simp [decide_eq_true h]
    · rw [if_neg h, List.find?_cons_of_neg _ (by simpa using h), ih]
      simp only [decide_eq_false h, Bool.false_or]

theorem find?_map_upd_ne (o : EnvObj) (k v k' : String) (h : k' ≠ k) :
    (o.map (fun p => if p.1 = k then (k, v) else p)).find? (fun p => p.1 = k') =
      o.find? (fun p => p.1 = k') := by
  induction o with
  | nil => simp
  | cons hd tl ih =>
    simp only [List.map_cons]
    by_cases hk : hd.1 = k
    · have h1 : ¬((k, v).1 = k') := fun hh => h (by simpa using hh.symm)
      have h2 : ¬(hd.1 = k') := by rw [hk]; intro hh; exact h hh.symm
      rw [if_pos hk, List.find?_cons_of_neg _ (by simpa using h1),
        List.find?_cons_of_neg _ (by simpa using h2)]
      exact ih
    · rw [if_neg hk]
      by_cases hk' : hd.1 = k'
      · rw [List.find?_cons_of_pos _ (by simpa using hk'),
          List.find?_cons_of_pos _ (by simpa using hk')]
      · rw [List.find?_cons_of_neg _ (by simpa using hk'),
          List.find?_cons_of_neg _ (by simpa using hk')]
        exact ih

theorem envLookup_objSet_self (o : EnvObj) (k v : String) :
    envLookup (objSet o k v) k = some v := by
  unfold objSet envLookup
  split
  case isTrue h => rw [find?_map_upd]; simp [h]
  case isFalse h =>
    rw [List.find?_append]
    have hnone : o.find? (fun p => p.1 = k) = none := by
      rw [List.find?_eq_none]
      intro x hx hpx
      exact h (List.any_eq_true.mpr ⟨x, hx, hpx⟩)
    simp [hnone]

theorem envLookup_objSet_ne (o : EnvObj) (k v k' : String) (h : k' ≠ k) :
    envLookup (objSet o k v) k' = envLookup o k' := by
  unfold objSet envLookup
  split
  · rw [find?_map_upd_ne o k v k' h]
  · rw [List.find?_append]
    have hkk : ¬(k = k') := fun hh => h hh.symm
    have hone : [(k, v)].find? (fun p => p.1 = k') = none := by simp [hkk]
    rw [hone, Option.or_none]

theorem envLookup_cons_ne (hd : String × String) (tl : EnvObj) (k : String)
    (h : hd.1 ≠ k) : envLookup (hd :: tl) k = envLookup tl k := by
  unfold envLookup
  rw [List.find?_cons_of_neg]
  simpa using h

theorem envLookup_eq_none_of_not_mem_keys (o : EnvObj) (k : String)
    (h : k ∉ o.map Prod.fst) : envLookup o k = none := by
  have hfind : o.find? (fun p => p.1 = k) = none := by
    rw [List.find?_eq_none]
    intro x hx hpx
    exact h (List.mem_map.mpr ⟨x, hx, by simpa using hpx⟩)
  simp [envLookup, hfind]

theorem envLookup_objAssign (a b : EnvObj) (hnd : (b.map Prod.fst).Nodup) (k : String) :
    envLookup (objAssign a b) k =
      match envLookup b k with
      | some v => some v
      | none => envLookup a k := by
  induction b generalizing a with
  | nil => simp [objAssign, envLookup]
  | cons hd tl ih =>
    have hstep : objAssign a (hd :: tl) = objAssign (objSet a hd.1 hd.2) tl := rfl
    rw [hstep]
    have hnd' : (tl.map Prod.fst).Nodup := (List.nodup_cons.mp (by simpa using hnd)).2
    have hnotin : hd.1 ∉ tl.map Prod.fst := (List.nodup_cons.mp (by simpa using hnd)).1
    rw [ih (objSet a hd.1 hd.2) hnd']
    by_cases hk : k = hd.1
    · have htl : envLookup tl k = none := by
        rw [hk]; exact envLookup_eq_none_of_not_mem_keys tl hd.1 hnotin
      have hhd : envLookup (hd :: tl) k = some hd.2 := by
        unfold envLookup
        rw [List.find?_cons_of_pos _ (by simpa using hk.symm)]
        rfl
      have hself : envLookup (objSet a hd.1 hd.2) k = some hd.2 := by
        rw [hk]; exact envLookup_objSet_self a hd.1 hd.2
      rw [htl, hhd]
      simpa using hself
    · have hne : hd.1 ≠ k := fun hh => hk hh.symm
      rw [envLookup_objSet_ne a hd.1 hd.2 k hk, envLookup_cons_ne hd tl k hne]

theorem envLookup_objDelete_self (o : EnvObj) (k : String) :
    envLookup (objDelete o k) k = none := by
  have hfind : (o.filter (fun p => p.1 ≠ k)).find? (fun p => p.1 = k) = none := by
    rw [List.find?_eq_none]
    intro x hx hpx
    have hne := (List.mem_filter.mp hx).2
    simp only [decide_eq_true_eq] at hpx hne
    exact hne hpx
  simp [objDelete, envLookup, hfind]

theorem envLookup_objDelete_none (o : EnvObj) (k k' : String)
    (h : envLookup o k = none) : envLookup (objDelete o k') k = none := by
  have hfind0 : o.find? (fun p => p.1 = k) = none := by
    unfold envLookup at h
    cases hfind : o.find? (fun p => p.1 = k) with
    | none => rfl
    | some w => rw [hfind] at h; simp at h
  have hfind : (o.filter (fun p => p.1 ≠ k')).find? (fun p => p.1 = k) = none :=
    List.find?_eq_none.mpr
      (fun x hx => (List.find?_eq_none.mp hfind0) x (List.mem_filter.mp hx).1)
  simp only [objDelete, envLookup]
  rw [hfind]
  rfl

theorem envLookup_foldl_objDelete_none (ks : List String) (o : EnvObj) (k : String)
    (h : envLookup o k = none) : envLookup (ks.foldl objDelete o) k = none := by
  induction ks generalizing o with
  | nil => simpa using h
  | cons a ks ih => exact ih (objDelete o a) (envLookup_objDelete_none o k a h)

theorem envLookup_foldl_objDelete_mem (ks : List String) (o : EnvObj) (k : String)
    (h : k ∈ ks) : envLookup (ks.foldl objDelete o) k = none := by
  induction ks generalizing o with
  | nil => cases h
  | cons a ks ih =>
    by_cases hk : k = a
    · subst hk
      exact envLookup_foldl_objDelete_none ks (objDelete o k) k
        (envLookup_objDelete_self o k)
    · have hmem : k ∈ ks := by
        cases List.mem_cons.mp h with
        | inl hh => exact absurd hh hk
        | inr hh => exact hh
      exact ih (objDelete o a) hmem

/-! ## Claim C4 -/

/-- Claim C4, as stated, is false: the patcher has no third caller-overlay
stage.  At the claim's own inputs — caller-supplied overlay `B:3` (which can
only reach the patcher as part of `config.env`, so the base is
`A:1, B:3`) and result `A:2, B:2` — the merged environment maps `B` to `2`,
not to `3`; the final conjunct shows that the three-stage merge the claim
describes would indeed give `3`, so the claim describes an operation the code
does not perform. -/
theorem c4_counterexample :
    envLookup (mergedConfigEnv [("A", "1"), ("B", "3")] [("A", "2"), ("B", "2")]) "B" = some "2" ∧
    envLookup (mergedConfigEnv [("A", "1"), ("B", "3")] [("A", "2"), ("B", "2")]) "B" ≠ some "3" ∧
    envLookup (specThreeStageMerge [("A", "1")] [("A", "2"), ("B", "2")] [("B", "3")]) "B" = some "3" := by
  refine ⟨by decide, by decide, by decide⟩

/-- Claim C4, amended: the patcher merges the launch configuration env and the
execution-result environment in that order, and the result wins on every key
collision — including keys the caller supplied, since there is no caller
overlay applied after the result.  For any key, the merged value is the
result's value when the result binds the key, else the base's value. -/
theorem c4_merge_order (base result : EnvObj)
    (hnd : (result.map Prod.fst).Nodup) (k : String) :
    envLookup (mergedConfigEnv base result) k =
      match envLookup result k with
      | some v => some v
      | none => envLookup base k :=
  envLookup_objAssign base result hnd k

/-- Witness for C4's amended theorem at base `A:1, B:3` and result
`A:2, B:2`: the merged environment maps `B` to `2` (the result wins). -/
theorem c4_merge_order_witness :
    envLookup (mergedConfigEnv [("A", "1"), ("B", "3")] [("A", "2"), ("B", "2")]) "B" = some "2" :=
  (c4_merge_order [("A", "1"), ("B", "3")] [("A", "2"), ("B", "2")] (by decide) "B").trans
    (by decide)

/-! ## Claim C5 -/

/-- Claim C5: removal of the `envKeysToUnset` keys happens strictly after the
merge of the result environment into `config.env` (lines 261-267 of
`debugger.ts`), so any key that occurs both in the result environment and in
the unset list is absent from the patched env. -/
theorem c5_unset_after_merge (base result : EnvObj) (keys : List String) (k : String)
    (_hres : k ∈ result.map Prod.fst) (hkeys : k ∈ keys) :
    envLookup (applyEnvToUnset (mergedConfigEnv base result) (some keys)) k = none := by
  unfold applyEnvToUnset
  exact envLookup_foldl_objDelete_mem keys (mergedConfigEnv base result) k hkeys

/-- Witness for C5 at base `A:1`, result `B:2`, unset list `[B]`: the final
env does not contain `B`. -/
theorem c5_unset_after_merge_witness :
    "B" ∈ ([("B", "2")] : EnvObj).map Prod.fst ∧ "B" ∈ ["B"] ∧
    envLookup (applyEnvToUnset (mergedConfigEnv [("A", "1")] [("B", "2")]) (some ["B"])) "B" = none :=
  ⟨by decide, by decide,
    c5_unset_after_merge [("A", "1")] [("B", "2")] ["B"] "B" (by decide) (by decide)⟩

/-! ## Claim C2 -/

/-- Claim C2: the argument vector is the `ext` sub-command followed by
`-t <target>` exactly when a concrete (non-empty) target was resolved,
`-f <path>` exactly when a config file path is present and non-empty, and
`-e <path>` exactly when an executable path is present and non-empty; and in
the end-to-end scenario — no static target, catalog containing only
`pod/api-1` with no namespace support, the user picking the first item —
the selection loop returns `pod/api-1` with no namespace and the spawn
arguments are exactly `ext -t pod/api-1`. -/
theorem c2_argument_vector :
    (∀ target cfg exe, makeMirrordArgs target cfg exe =
      ["ext"] ++ optArgPair "-t" target ++ optArgPair "-f" cfg ++ optArgPair "-e" exe) ∧
    (runQuickPick (fun _ => ⟨[⟨"pod/api-1", true⟩], none, none⟩)
        (newQuickPick (fun _ => ⟨[⟨"pod/api-1", true⟩], none, none⟩) none none)
        [some 0]).selection = some ⟨"pod/api-1", none⟩ ∧
    makeMirrordArgs (some "pod/api-1") none none = ["ext", "-t", "pod/api-1"] := by
  refine ⟨?_, by decide, by decide⟩
  intro target cfg exe
  cases target <;> cases cfg <;> cases exe <;>
    simp only [makeMirrordArgs, optArgPair] <;>
    (try split_ifs) <;> simp

/-! ## Claim C1 -/

/-- Claim C1, as stated, is false in its last arm: on a clean exit (code 0,
no signal, no stderr sentinel) with no `Finished` message ever observed, the
close handler rejects nothing — the promise stays pending and the run ends in
`Timeout`, not in a `ProtocolError` about the stream ending without a result.
Concretely: no stdout, empty stderr, exit code 0, no signal. -/
theorem c1_counterexample :
    executeOutcome [] "" (some ⟨some 0, none⟩) = .rejectedTimeout ∧
    (executeOutcome [] "" (some ⟨some 0, none⟩)).isSentinelError = false :=
  ⟨rfl, rfl⟩

/-- Claim C1, amended: for a run whose stdout never resolved (no
`Finished\x7bsuccess:true\x7d` observed, and no handler exception), the failure
disposition on process exit is decided in this order — a (truthy, parsable)
stderr error sentinel rejects with the protocol error carrying its `message`
and, when truthy, its `help`; else a non-zero exit code rejects with that
code; else a present signal rejects with that signal; else nothing is
rejected at exit and the run fails with `Timeout` when the 120-second timer
fires (not with a protocol error). -/
theorem c1_exit_disposition (chunks : List String) (stderrData : String)
    (code : Option Int) (signal : Option String)
    (hres : (processStdout chunks).resolved = none)
    (hexc : (processStdout chunks).excepted = false) :
    (∀ cap err, sentinelCapture stderrData = some cap → parseJson cap = some err →
      executeOutcome chunks stderrData (some ⟨code, signal⟩) =
        .rejectedError (jsGet err "message")
          (if jsTruthyOpt (jsGet err "help") then jsGet err "help" else none)) ∧
    (∀ c, sentinelCapture stderrData = none → code = some c → c ≠ 0 →
      executeOutcome chunks stderrData (some ⟨code, signal⟩) = .rejectedExitCode c) ∧
    (∀ s, sentinelCapture stderrData = none → (code = none ∨ code = some 0) →
      signal = some s →
      executeOutcome chunks stderrData (some ⟨code, signal⟩) = .rejectedSignal s) ∧
    (sentinelCapture stderrData = none → (code = none ∨ code = some 0) →
      signal = none →
      executeOutcome chunks stderrData (some ⟨code, signal⟩) = .rejectedTimeout) := by
  refine ⟨?_, ?_, ?_, ?_⟩
  · intro cap err hcap herr
    simp [executeOutcome, closeOutcome, hres, hexc, hcap, herr]
  · intro c hnone hcode hc0
    subst hcode
    simp [executeOutcome, closeOutcome, codeSignalOutcome, hres, hexc, hnone, hc0]
  · intro s hnone hcode01 hsig
    subst hsig
    rcases hcode01 with hcode | hcode <;> subst hcode <;>
      simp [executeOutcome, closeOutcome, codeSignalOutcome, hres, hexc, hnone]
  · intro hnone hcode01 hsig
    subst hsig
    rcases hcode01 with hcode | hcode <;> subst hcode <;>
      simp [executeOutcome, closeOutcome, codeSignalOutcome, hres, hexc, hnone]

/-- Witness for C1's amended theorem: a run with no stdout and stderr noise
without a sentinel, exiting with code 2, rejects with `AbnormalExit(2)`. -/
theorem c1_exit_disposition_witness :
    executeOutcome [] "plain diagnostics" (some ⟨some 2, none⟩) = .rejectedExitCode 2 :=
  (c1_exit_disposition [] "plain diagnostics" (some 2) none rfl rfl).2.1 2 rfl rfl
    (by decide)

/-! ## Claim C6 -/

/-- Claim C6: when a `Finished\x7bsuccess:true\x7d` message resolves the
promise during stdout processing, the run ends with the successful result
even though the captured stderr holds an error sentinel — stderr is only
consulted by the close handler, which runs after all stdout data has been
delivered, and a settled promise ignores later rejections. -/
theorem c6_success_beats_sentinel (chunks : List String) (stderrData : String)
    (closeInfo : Option CloseInfo) (r : MirrordExecution) (cap : String)
    (hres : (processStdout chunks).resolved = some r)
    (_hcap : sentinelCapture stderrData = some cap) :
    executeOutcome chunks stderrData closeInfo = .resolvedOk r := by
  simp [executeOutcome, hres]

/-- Witness for C6: a captured session whose stdout carries a real
`FinishedTask` success line and whose stderr carries an error sentinel, with
exit code 1 — the run still resolves with the decoded execution result. -/
theorem c6_success_beats_sentinel_witness :
    executeOutcome
      ["\x7b\"name\":\"mirrord preparing to launch\",\"type\":\"FinishedTask\",\"success\":true,\"message\":\"\x7b\\\"environment\\\":\x7b\\\"A\\\":\\\"1\\\"\x7d,\\\"patched_path\\\":null,\\\"env_to_unset\\\":[]\x7d\"\x7d\n"]
      "Error: \x7b\"message\":\"boom\"\x7d" (some ⟨some 1, none⟩) =
      .resolvedOk ⟨[("A", "1")], none, some [], none⟩ :=
  c6_success_beats_sentinel _ _ _ _ "\x7b\"message\":\"boom\"\x7d" rfl rfl

/-! ## Claim C7 -/

/-- Claim C7: a run whose process emits no `Finished` message (so the stdout
decoder neither resolves nor throws) and never exits ends as `Timeout` — the
timer is fixed at 120 seconds, and `binaryExecute` performs no `kill` call on
the child, so the subprocess is not explicitly terminated. -/
theorem c7_timeout (chunks : List String) (stderrData : String)
    (hres : (processStdout chunks).resolved = none)
    (hexc : (processStdout chunks).excepted = false) :
    executeOutcome chunks stderrData none = .rejectedTimeout ∧
    TIMEOUT_MS = 120000 ∧ "kill" ∉ binaryExecuteChildCalls := by
  refine ⟨by simp [executeOutcome, hres, hexc], rfl, by decide⟩

/-- Witness for C7: a silent process (no stdout, no stderr, no exit) times
out. -/
theorem c7_timeout_witness :
    executeOutcome [] "" none = .rejectedTimeout ∧
    TIMEOUT_MS = 120000 ∧ "kill" ∉ binaryExecuteChildCalls :=
  c7_timeout [] "" rfl rfl

/-! ## Claim C8 -/

/-- Characterization of `splitNl` on a newline-terminated prefix. -/
theorem splitNl_append_newline (xs ys : List Char) (h : ¬ '\n' ∈ xs) :
    splitNl (xs ++ '\n' :: ys) = xs :: splitNl ys := by
  induction xs with
  | nil => simp [splitNl]
  | cons c cs ih =>
    have hc : ¬(c = '\n') := fun hh => h (hh ▸ List.mem_cons_self c cs)
    have hcs : ¬ '\n' ∈ cs := fun hh => h (List.mem_cons_of_mem c hh)
    simp only [List.cons_append, splitNl, if_neg hc]
    rw [List.append_eq, ih hcs]

/-- A whole newline-terminated chunk consisting of one malformed, non-empty
line is consumed without any effect when the buffer is empty: the line is
dropped, nothing is dispatched, nothing resolves, nothing throws. -/
theorem onData_malformed (st : StdoutState) (m : String)
    (hbuf : st.buffer = []) (hparse : parseJson m = none) (hne : m ≠ "")
    (hnl : ¬ '\n' ∈ m.toList) :
    onData st (m ++ "\n") = st := by
  have hparse2 : parseJsonChars m.data = none := hparse
  have hmnil : m.data ≠ [] := by
    intro hh
    apply hne
    cases m with
    | mk data =>
      simp only at hh
      subst hh
      rfl
  obtain ⟨b, d, r, e⟩ := st
  have hb : b = [] := hbuf
  subst hb
  cases e with
  | true => simp [onData]
  | false =>
    have hdata : (m ++ "\n").toList = m.data ++ ['\n'] := by
      simp [String.toList]
    have hsplit : splitNl (m.data ++ ['\n']) = [m.data, []] := by
      simpa [splitNl] using splitNl_append_newline m.data [] hnl
    have hdrop : (m.data ++ ['\n']).drop (m.data.length + 1) = [] := by
      have hlen : m.data.length + 1 = (m.data ++ ['\n']).length := by simp
      rw [hlen, List.drop_length]
    simp only [onData, Bool.false_eq_true, if_false, List.nil_append, hdata,
      hsplit, List.dropLast]
    simp only [chunkLoop, if_neg hmnil, hdrop, hparse2]

/-- Claim C8, as stated, is false: when a malformed line and a later
well-formed line arrive in the same (final) `data` chunk, the handler
`return`s upon the decode failure, so the well-formed `Info` line — which
does parse — is never classified or dispatched. -/
theorem c8_counterexample :
    (processStdout ["bad\n\x7b\"type\":\"Info\",\"message\":\"hi\"\x7d\n"]).dispatched = [] ∧
    (parseJson "\x7b\"type\":\"Info\",\"message\":\"hi\"\x7d").isSome = true :=
  ⟨rfl, rfl⟩

/-- Claim C8, amended: a malformed (non-empty, newline-terminated) line is
dropped without failing the run — processing it leaves the decoder state
exactly unchanged, so the whole stream behaves as if the malformed chunk had
not been sent: every well-formed line of a later chunk is still classified
and dispatched, and the run outcome is unaffected.  (Well-formed lines
sharing the malformed line's own chunk, however, are only decoded when a
further chunk arrives — the counterexample — and an empty line wedges the
decoder; the recovery guarantee is per subsequent chunk, not per line.) -/
theorem c8_malformed_line_recovery (pre post : List String) (m : String)
    (hparse : parseJson m = none) (hne : m ≠ "") (hnl : ¬ '\n' ∈ m.toList)
    (hbuf : (processStdout pre).buffer = []) :
    processStdout (pre ++ (m ++ "\n") :: post) = processStdout (pre ++ post) ∧
    ∀ stderrData closeInfo,
      executeOutcome (pre ++ (m ++ "\n") :: post) stderrData closeInfo =
        executeOutcome (pre ++ post) stderrData closeInfo := by
  have e1 : processStdout (pre ++ (m ++ "\n") :: post)
      = List.foldl onData (onData (processStdout pre) (m ++ "\n")) post := by
    show List.foldl onData initialStdoutState (pre ++ (m ++ "\n") :: post) = _
    rw [List.foldl_append]
    rfl
  have e2 : processStdout (pre ++ post) = List.foldl onData (processStdout pre) post := by
    show List.foldl onData initialStdoutState (pre ++ post) = _
    rw [List.foldl_append]
    rfl
  have hmain : processStdout (pre ++ (m ++ "\n") :: post) = processStdout (pre ++ post) := by
    rw [e1, e2, onData_malformed (processStdout pre) m hbuf hparse hne hnl]
  refine ⟨hmain, fun stderrData closeInfo => ?_⟩
  unfold executeOutcome
  rw [hmain]

/-- Witness for C8's amended theorem: a malformed chunk `bad\n` followed by a
chunk with a well-formed `Info` line — the stream behaves exactly as if only
the `Info` chunk had been sent, and in particular that line is dispatched. -/
theorem c8_malformed_line_recovery_witness :
    processStdout (("bad" ++ "\n") :: ["\x7b\"type\":\"Info\",\"message\":\"hi\"\x7d\n"]) =
      processStdout ["\x7b\"type\":\"Info\",\"message\":\"hi\"\x7d\n"] ∧
    (processStdout ["\x7b\"type\":\"Info\",\"message\":\"hi\"\x7d\n"]).dispatched =
      [.infoEvt (some (.str "hi"))] :=
  ⟨(c8_malformed_line_recovery [] ["\x7b\"type\":\"Info\",\"message\":\"hi\"\x7d\n"]
      "bad" rfl (by decide) (by decide) rfl).1, rfl⟩

/-! ## Claim C3 -/

/-- Claim C3, as stated, is false in its fallback arm: when the last-selected
type has no current targets, the default page is the page of the first target
in catalog order, not the first type with targets in the fixed priority order
deployment-rollout-pod.  Concretely: last target `rollout/x` (no rollouts in
the catalog), catalog `[pod/a, deployment/b]` — the claim's priority order
demands the deployment page, the code picks the pod page. -/
theorem c3_counterexample :
    getDefaultPage
      { lsOutput := ⟨[⟨"pod/a", true⟩, ⟨"deployment/b", true⟩], none, none⟩
        activePage := none, lastTarget := some "rollout/x"
        workspaceLast := some "rollout/x", globalLast := none } =
      some ⟨"Show Pods", some "pod"⟩ ∧
    getDefaultPage
      { lsOutput := ⟨[⟨"pod/a", true⟩, ⟨"deployment/b", true⟩], none, none⟩
        activePage := none, lastTarget := some "rollout/x"
        workspaceLast := some "rollout/x", globalLast := none } ≠
      some ⟨"Show Deployments", some "deployment"⟩ :=
  ⟨rfl, by decide⟩

/-- Claim C3, amended: the initial page is the page of the last-selected
target's type when the catalog has at least one target of that type;
otherwise it is the page of the type of the first target in catalog order
(not the fixed priority order); and with no targets at all no page is
selected. -/
theorem c3_default_page (st : TargetQuickPickState) :
    (∀ lt pg, st.lastTarget = some lt →
      hasTargetOfType st.lsOutput (targetTypeOf lt) = true →
      TARGET_SELECTION_PAGES.find? (fun p => p.targetType == some (targetTypeOf lt)) = some pg →
      getDefaultPage st = some pg) ∧
    (∀ t rest pg,
      (match st.lastTarget with
       | some lt =>
         if hasTargetOfType st.lsOutput (targetTypeOf lt) then
           TARGET_SELECTION_PAGES.find? (fun p => p.targetType == some (targetTypeOf lt))
         else none
       | none => none) = none →
      st.lsOutput.targets = t :: rest →
      TARGET_SELECTION_PAGES.find? (fun p => p.targetType == some (targetTypeOf t.path)) = some pg →
      getDefaultPage st = some pg) ∧
    (st.lsOutput.targets = [] → getDefaultPage st = none) := by
  refine ⟨?_, ?_, ?_⟩
  · intro lt pg hlt htt hfind
    simp [getDefaultPage, hlt, htt, hfind]
  · intro t rest pg hnolast htargets hfind
    simp only [getDefaultPage, hnolast, htargets, List.findSome?_cons, hfind]
  · intro h
    cases hlt : st.lastTarget with
    | none => simp [getDefaultPage, hlt, h]
    | some lt => simp [getDefaultPage, hlt, h, hasTargetOfType]

/-- Witness for C3's amended theorem: catalog `[pod/a, deployment/b]` with
last target `deployment/b` — the default page is the deployments page. -/
theorem c3_default_page_witness :
    getDefaultPage
      { lsOutput := ⟨[⟨"pod/a", true⟩, ⟨"deployment/b", true⟩], none, none⟩
        activePage := none, lastTarget := some "deployment/b"
        workspaceLast := none, globalLast := none } =
      some ⟨"Show Deployments", some "deployment"⟩ :=
  (c3_default_page _).1 "deployment/b" ⟨"Show Deployments", some "deployment"⟩ rfl
    (by decide) (by decide)

/-! ## Claim C9 -/

/-- Claim C9, as stated, is false for the explicit "no target" pick: the
targetless item is `target`-typed with the defined value `targetless`, so
picking it runs the persistence branch and writes `targetless` into both
scopes.  Concretely: empty catalog, empty persisted state, the user picks the
only item (the targetless one) — both scopes are written. -/
theorem c9_counterexample :
    runQuickPick (fun _ => (⟨[], none, none⟩ : MirrordLsOutput))
      (newQuickPick (fun _ => (⟨[], none, none⟩ : MirrordLsOutput)) none none)
      [some 0] =
      .finished ⟨"targetless", none⟩
        { lsOutput := ⟨[], none, none⟩, activePage := none, lastTarget := none
          workspaceLast := some "targetless", globalLast := some "targetless" } ∧
    (newQuickPick (fun _ => (⟨[], none, none⟩ : MirrordLsOutput)) none none).workspaceLast
      = none ∧
    (newQuickPick (fun _ => (⟨[], none, none⟩ : MirrordLsOutput)) none none).globalLast
      = none :=
  ⟨rfl, rfl, rfl⟩

/-- Claim C9, amended: the persisted last-target state (both scopes) is
written exactly by `target`-typed picks — a concrete target, or the explicit
"no target" item, which persists the value `targetless`; every other outcome
of the loop (namespace switches, page switches, dismissing the picker, or the
prompt script running out) leaves both scopes unchanged.  Each prompt round
is characterized exactly: resolving the user's reaction against the displayed
items, a dismissal terminates with the prepared state itself (both scopes
untouched), a `target`-typed pick terminates with both scopes overwritten by
the picked value, and a namespace or page pick continues the loop on a state
with both scopes untouched; in addition, over a whole run, a loop that runs
out of prompts leaves both scopes exactly as they started, and a finished
loop either left them unchanged or wrote both to the selected path. -/
theorem c9_persistence (fetcher : Option String → MirrordLsOutput) :
    (∀ (st : TargetQuickPickState) (choice : Option Nat) (rest : List (Option Nat)),
      (choice.bind (fun i => (quickPickItems (preparedState st)).get? i) = none →
        runQuickPick fetcher st (choice :: rest) =
          .finished ⟨"targetless", (preparedState st).lsOutput.current_namespace⟩
            (preparedState st) ∧
        (preparedState st).workspaceLast = st.workspaceLast ∧
        (preparedState st).globalLast = st.globalLast) ∧
      (∀ l v, choice.bind (fun i => (quickPickItems (preparedState st)).get? i) =
          some (TargetQuickPickItem.targetItem l v) →
        runQuickPick fetcher st (choice :: rest) =
          .finished ⟨v, (preparedState st).lsOutput.current_namespace⟩
            { preparedState st with workspaceLast := some v, globalLast := some v }) ∧
      (∀ l n, choice.bind (fun i => (quickPickItems (preparedState st)).get? i) =
          some (TargetQuickPickItem.namespaceItem l n) →
        runQuickPick fetcher st (choice :: rest) =
          runQuickPick fetcher
            { preparedState st with
              lsOutput := filterLsOutput (fetcher (some n)), activePage := none } rest ∧
        ({ preparedState st with
            lsOutput := filterLsOutput (fetcher (some n)),
            activePage := none } : TargetQuickPickState).workspaceLast = st.workspaceLast ∧
        ({ preparedState st with
            lsOutput := filterLsOutput (fetcher (some n)),
            activePage := none } : TargetQuickPickState).globalLast = st.globalLast) ∧
      (∀ l pg, choice.bind (fun i => (quickPickItems (preparedState st)).get? i) =
          some (TargetQuickPickItem.pageItem l pg) →
        runQuickPick fetcher st (choice :: rest) =
          runQuickPick fetcher { preparedState st with activePage := some pg } rest ∧
        ({ preparedState st with
            activePage := some pg } : TargetQuickPickState).workspaceLast = st.workspaceLast ∧
        ({ preparedState st with
            activePage := some pg } : TargetQuickPickState).globalLast = st.globalLast)) ∧
    (∀ (st : TargetQuickPickState) (choices : List (Option Nat)) st',
      runQuickPick fetcher st choices = .outOfPrompts st' →
      st'.workspaceLast = st.workspaceLast ∧ st'.globalLast = st.globalLast) ∧
    (∀ (st : TargetQuickPickState) (choices : List (Option Nat)) sel st',
      runQuickPick fetcher st choices = .finished sel st' →
      (st'.workspaceLast = st.workspaceLast ∧ st'.globalLast = st.globalLast) ∨
      (st'.workspaceLast = some sel.path ∧ st'.globalLast = some sel.path)) := by
  have hloop : ∀ (choices : List (Option Nat)) (st : TargetQuickPickState),
      (∀ st', runQuickPick fetcher st choices = .outOfPrompts st' →
        st'.workspaceLast = st.workspaceLast ∧ st'.globalLast = st.globalLast) ∧
      (∀ sel st', runQuickPick fetcher st choices = .finished sel st' →
        (st'.workspaceLast = st.workspaceLast ∧ st'.globalLast = st.globalLast) ∨
        (st'.workspaceLast = some sel.path ∧ st'.globalLast = some sel.path)) := by
    intro choices
    induction choices with
    | nil =>
      intro st
      constructor
      · intro st' h
        simp only [runQuickPick] at h
        cases h
        exact ⟨rfl, rfl⟩
      · intro sel st' h
        simp only [runQuickPick] at h
        cases h
    | cons choice rest ih =>
      intro st
      constructor
      · intro st' h
        simp only [runQuickPick] at h
        split at h
        · cases h
        · cases h
        · rename_i lbl n heq
          exact (ih { preparedState st with
            lsOutput := filterLsOutput (fetcher (some n)), activePage := none }).1 st' h
        · rename_i lbl pg heq
          exact (ih { preparedState st with activePage := some pg }).1 st' h
      · intro sel st' h
        simp only [runQuickPick] at h
        split at h
        · cases h
          exact Or.inl ⟨rfl, rfl⟩
        · cases h
          exact Or.inr ⟨rfl, rfl⟩
        · rename_i lbl n heq
          exact (ih { preparedState st with
            lsOutput := filterLsOutput (fetcher (some n)), activePage := none }).2 sel st' h
        · rename_i lbl pg heq
          exact (ih { preparedState st with activePage := some pg }).2 sel st' h
  refine ⟨?_, fun st choices => (hloop choices st).1, fun st choices => (hloop choices st).2⟩
  intro st choice rest
  refine ⟨?_, ?_, ?_, ?_⟩
  · intro h
    refine ⟨?_, rfl, rfl⟩
    simp only [runQuickPick, h]
  · intro l v h
    simp only [runQuickPick, h]
  · intro l n h
    refine ⟨?_, rfl, rfl⟩
    simp only [runQuickPick, h]
  · intro l pg h
    refine ⟨?_, rfl, rfl⟩
    simp only [runQuickPick, h]

/-- Witness for C9's amended theorem, over the catalog `[pod/a]` with both
scopes initially persisting `deployment/prev`: dismissing the picker
terminates targetless with both scopes still `deployment/prev`, while picking
the first item (the concrete target `pod/a`) terminates with both scopes
rewritten to `pod/a` — the two literal result states differ exactly in the
persisted scopes. -/
theorem c9_persistence_witness :
    runQuickPick (fun _ => (⟨[⟨"pod/a", true⟩], none, none⟩ : MirrordLsOutput))
      { lsOutput := ⟨[⟨"pod/a", true⟩], none, none⟩, activePage := none
        lastTarget := some "deployment/prev"
        workspaceLast := some "deployment/prev", globalLast := some "deployment/prev" }
      [none] =
      .finished ⟨"targetless", none⟩
        { lsOutput := ⟨[⟨"pod/a", true⟩], none, none⟩
          activePage := some ⟨"Show Pods", some "pod"⟩
          lastTarget := some "deployment/prev"
          workspaceLast := some "deployment/prev", globalLast := some "deployment/prev" } ∧
    runQuickPick (fun _ => (⟨[⟨"pod/a", true⟩], none, none⟩ : MirrordLsOutput))
      { lsOutput := ⟨[⟨"pod/a", true⟩], none, none⟩, activePage := none
        lastTarget := some "deployment/prev"
        workspaceLast := some "deployment/prev", globalLast := some "deployment/prev" }
      [some 0] =
      .finished ⟨"pod/a", none⟩
        { lsOutput := ⟨[⟨"pod/a", true⟩], none, none⟩
          activePage := some ⟨"Show Pods", some "pod"⟩
          lastTarget := some "deployment/prev"
          workspaceLast := some "pod/a", globalLast := some "pod/a" } :=
  ⟨((c9_persistence (fun _ => (⟨[⟨"pod/a", true⟩], none, none⟩ : MirrordLsOutput))).1
      { lsOutput := ⟨[⟨"pod/a", true⟩], none, none⟩, activePage := none
        lastTarget := some "deployment/prev"
        workspaceLast := some "deployment/prev", globalLast := some "deployment/prev" }
      none []).1 rfl |>.1,
    ((c9_persistence (fun _ => (⟨[⟨"pod/a", true⟩], none, none⟩ : MirrordLsOutput))).1
      { lsOutput := ⟨[⟨"pod/a", true⟩], none, none⟩, activePage := none
        lastTarget := some "deployment/prev"
        workspaceLast := some "deployment/prev", globalLast := some "deployment/prev" }
      (some 0) []).2.1 "pod/a" "pod/a" rfl⟩

/-! ## Claim C10 -/

theorem validTarget_of_mem_filterLsOutput (output : MirrordLsOutput) {t : FoundTarget}
    (h : t ∈ (filterLsOutput output).targets) : validTarget t = true :=
  (List.mem_filter.mp h).2

theorem mem_moveMatchFront {p : TargetQuickPickItem → Bool}
    {l : List TargetQuickPickItem} {x : TargetQuickPickItem}
    (h : x ∈ moveMatchFront p l) : x ∈ l := by
  unfold moveMatchFront at h
  split at h
  · split at h
    · rename_i a ha
      rcases List.mem_cons.mp h with rfl | hmem
      · exact List.get?_mem ha
      · exact List.mem_of_mem_eraseIdx hmem
    · exact h
  · exact h

/-- Claim C10: the quick pick's held catalog contains only available targets
of supported types, from construction (the filter wraps the initial fetch)
and across every namespace switch (the refetch goes through the same filter),
and however the selection loop is driven, the held catalog keeps satisfying
the invariant; moreover no prepared page ever offers a `target`-typed item
other than the targetless one whose value is not the path of a valid catalog
target. -/
theorem c10_catalog_invariant :
    (∀ fetcher wsLast gsLast,
      ∀ t ∈ (newQuickPick fetcher wsLast gsLast).lsOutput.targets, validTarget t = true) ∧
    (∀ output, ∀ t ∈ (filterLsOutput output).targets, validTarget t = true) ∧
    (∀ st : TargetQuickPickState,
      (∀ t ∈ st.lsOutput.targets, validTarget t = true) →
      ∀ l v, TargetQuickPickItem.targetItem l v ∈ quickPickItems (preparedState st) →
        v = "targetless" ∨ ∃ t ∈ st.lsOutput.targets, t.path = v ∧ validTarget t = true) ∧
    (∀ fetcher st choices,
      (∀ t ∈ st.lsOutput.targets, validTarget t = true) →
      (∀ st', runQuickPick fetcher st choices = .outOfPrompts st' →
        ∀ t ∈ st'.lsOutput.targets, validTarget t = true) ∧
      (∀ sel st', runQuickPick fetcher st choices = .finished sel st' →
        ∀ t ∈ st'.lsOutput.targets, validTarget t = true)) := by
  have hfilter : ∀ output : MirrordLsOutput,
      ∀ t ∈ (filterLsOutput output).targets, validTarget t = true :=
    fun output t ht => validTarget_of_mem_filterLsOutput output ht
  refine ⟨fun fetcher wsLast gsLast => hfilter (fetcher none), hfilter, ?_, ?_⟩
  · intro st hinv l v hmem
    cases hpage : (preparedState st).activePage with
    | none =>
      simp only [quickPickItems, hpage] at hmem
      rcases List.mem_append.mp hmem with hleft | hright
      · left
        have : TargetQuickPickItem.targetItem l v = TARGETLESS_ITEM := by
          simpa using hleft
        simpa [TARGETLESS_ITEM] using congrArg
          (fun i => match i with | TargetQuickPickItem.targetItem _ w => w | _ => "") this
      · exfalso
        cases hns : (preparedState st).lsOutput.namespaces <;>
          rw [hns] at hright <;> simp at hright
    | some pg =>
      cases hpt : pg.targetType with
      | none =>
        exfalso
        simp only [quickPickItems, hpage, hpt] at hmem
        rcases List.mem_append.mp hmem with hleft | hright
        · rcases List.mem_map.mp hleft with ⟨n, _, hn⟩
          cases hn
        · rcases List.mem_map.mp hright with ⟨q, _, hq⟩
          cases hq
      | some tt =>
        simp only [quickPickItems, hpage, hpt] at hmem
        rcases List.mem_append.mp hmem with hmem1 | hns
        · rcases List.mem_append.mp hmem1 with hmem2 | hpages
          · rcases List.mem_append.mp hmem2 with htargets | htl
            · right
              have hmem3 : TargetQuickPickItem.targetItem l v ∈
                  ((preparedState st).lsOutput.targets.filter
                    (fun t => jsStartsWith t.path (tt ++ "/"))).map
                    (fun t => TargetQuickPickItem.targetItem t.path t.path) := by
                cases hlt : (preparedState st).lastTarget with
                | none => rw [hlt] at htargets; exact htargets
                | some lt => rw [hlt] at htargets; exact mem_moveMatchFront htargets
              rcases List.mem_map.mp hmem3 with ⟨t, htmem, hteq⟩
              have htst : t ∈ st.lsOutput.targets := (List.mem_filter.mp htmem).1
              cases hteq
              exact ⟨t, htst, rfl, hinv t htst⟩
            · left
              have : TargetQuickPickItem.targetItem l v = TARGETLESS_ITEM := by
                simpa using htl
              simpa [TARGETLESS_ITEM] using congrArg
                (fun i => match i with | TargetQuickPickItem.targetItem _ w => w | _ => "") this
          · exfalso
            rcases List.mem_map.mp hpages with ⟨q, _, hq⟩
            cases hq
        · exfalso
          cases hn : (preparedState st).lsOutput.namespaces <;>
            rw [hn] at hns <;> simp at hns
  · intro fetcher st choices hinv
    induction choices generalizing st with
    | nil =>
      constructor
      · intro st' h
        simp only [runQuickPick] at h
        cases h
        exact hinv
      · intro sel st' h
        simp only [runQuickPick] at h
        cases h
    | cons choice rest ih =>
      constructor
      · intro st' h
        simp only [runQuickPick] at h
        split at h
        · cases h
        · cases h
        · rename_i lbl n heq
          exact (ih { preparedState st with
            lsOutput := filterLsOutput (fetcher (some n)), activePage := none }
            (hfilter (fetcher (some n)))).1 st' h
        · rename_i lbl pg heq
          exact (ih { preparedState st with activePage := some pg } hinv).1 st' h
      · intro sel st' h
        simp only [runQuickPick] at h
        split at h
        · cases h
          exact hinv
        · cases h
          exact hinv
        · rename_i lbl n heq
          exact (ih { preparedState st with
            lsOutput := filterLsOutput (fetcher (some n)), activePage := none }
            (hfilter (fetcher (some n)))).2 sel st' h
        · rename_i lbl pg heq
          exact (ih { preparedState st with activePage := some pg } hinv).2 sel st' h

/-- Witness for C10: a raw fetcher offering an unavailable pod and an
unsupported type — after construction the catalog holds only the valid
deployment, and the only target item offered besides the targetless one is
that deployment. -/
theorem c10_catalog_invariant_witness :
    (∀ t ∈ (newQuickPick
        (fun _ => (⟨[⟨"pod/broken", false⟩, ⟨"cronjob/x", true⟩, ⟨"deployment/ok", true⟩],
          none, none⟩ : MirrordLsOutput)) none none).lsOutput.targets,
      validTarget t = true) ∧
    ((newQuickPick
        (fun _ => (⟨[⟨"pod/broken", false⟩, ⟨"cronjob/x", true⟩, ⟨"deployment/ok", true⟩],
          none, none⟩ : MirrordLsOutput)) none none).lsOutput.targets =
      [⟨"deployment/ok", true⟩]) :=
  ⟨c10_catalog_invariant.1
      (fun _ => (⟨[⟨"pod/broken", false⟩, ⟨"cronjob/x", true⟩, ⟨"deployment/ok", true⟩],
        none, none⟩ : MirrordLsOutput)) none none,
    rfl⟩

end MirrordSpec
